import Mathlib

/-!
Shallow embedding of `bot.py` (SOMC-63 schedule notifier bot) and proofs
about its audience resolution, agenda building, imminent-event detection,
message composition, escaping and dispatch logic.

Python-specific behaviour is modelled explicitly:
* `str.split(sep)` with a one-character separator is `pySplit`;
* `str.strip()` is `pyStrip`;
* `int(s)` is `pyInt` (optional surrounding whitespace, optional sign,
  decimal digits; exotic forms such as underscore grouping are out of scope);
* `html.escape(s)` (with the default `quote=True`) is `htmlEscape`;
* Python's stable `list.sort(key=...)` is `sortByKey` (insertion sort by
  key, which is extensionally the unique stable ascending sort by key);
* dict `.get` with a default is `Option.getD`; a JSON field that may be
  absent is an `Option` field;
* the falsiness of `None` and of the empty list (`if not day:`) is an
  explicit `Option`/`isEmpty` case split;
* missing credentials (`if not TELEGRAM_BOT_TOKEN or not TELEGRAM_CHANNEL_ID`)
  are modelled as the empty string;
* the network is an injected `transport : Nat → PostResult` giving the
  outcome of the i-th HTTP POST; `requests.post` exceptions are `PostResult.exc`.
-/

namespace SOMCBot

/-- Characters stripped by Python `str.strip()` with no argument. -/
def wsChar (c : Char) : Bool :=
  c == ' ' || c == '\t' || c == '\n' || c == '\x0d' || c == '\x0b' || c == '\x0c'

def pyStripList (l : List Char) : List Char :=
  ((l.dropWhile wsChar).reverse.dropWhile wsChar).reverse

/-- Python `s.strip()`. -/
def pyStrip (s : String) : String := ⟨pyStripList s.data⟩

/-- Python `s.split(sep)` for a one-character separator `sep`
(`"".split(sep) == [""]`, empty pieces are kept). -/
def splitOnCharL (sep : Char) : List Char → List (List Char)
  | [] => [[]]
  | x :: xs =>
    let r := splitOnCharL sep xs
    if x == sep then [] :: r
    else
      match r with
      | [] => [[x]]
      | h :: t => (x :: h) :: t

def pySplit (sep : Char) (s : String) : List String :=
  (splitOnCharL sep s.data).map (fun l => String.mk l)

def digitsVal (l : List Char) : Nat :=
  l.foldl (fun a c => 10 * a + (c.toNat - '0'.toNat)) 0

/-- Python `int(s)` on a list of characters: optional surrounding
whitespace, optional single sign, then a nonempty run of decimal digits. -/
def pyIntL (l : List Char) : Option Int :=
  match pyStripList l with
  | [] => none
  | '+' :: rest =>
    if !rest.isEmpty && rest.all Char.isDigit then some (digitsVal rest) else none
  | '-' :: rest =>
    if !rest.isEmpty && rest.all Char.isDigit then some (-(digitsVal rest : Int)) else none
  | l' =>
    if l'.all Char.isDigit then some (digitsVal l') else none

/-- Python `int(s)`. -/
def pyInt (s : String) : Option Int := pyIntL s.data

/-- Decimal digits of `n`, most significant first (fuel-based so that it
reduces in the kernel). -/
def natDigitsAux : Nat → Nat → List Char
  | 0, _ => []
  | fuel + 1, n =>
    if n < 10 then [Nat.digitChar n]
    else natDigitsAux fuel (n / 10) ++ [Nat.digitChar (n % 10)]

def pyStrNat (n : Nat) : String := ⟨natDigitsAux (n + 1) n⟩

/-- Python `str(i)` for an integer `i`. -/
def pyStrInt (i : Int) : String :=
  match i with
  | .ofNat n => pyStrNat n
  | .negSucc n => "-" ++ pyStrNat (n + 1)

/-- One character's expansion under Python `html.escape` (default
`quote=True`): `&`, `<`, `>`, `"` and the apostrophe become entities. -/
def escChar (c : Char) : List Char :=
  if c == '&' then "&amp;".data
  else if c == '<' then "&lt;".data
  else if c == '>' then "&gt;".data
  else if c == '"' then "&quot;".data
  else if c == '\x27' then "&#x27;".data
  else [c]

def escList : List Char → List Char
  | [] => []
  | c :: l => escChar c ++ escList l

/-- Python `html.escape(s)` (the successive `str.replace` calls of CPython's
implementation act characterwise, since every replaced pattern is a single
character and no produced entity contains a character replaced later). -/
def htmlEscape (s : String) : String := ⟨escList s.data⟩

/-- The characters that `html.escape` rewrites. -/
def escapable (c : Char) : Bool :=
  c == '&' || c == '<' || c == '>' || c == '"' || c == '\x27'

/-- Python `pat in s` for strings (substring containment). -/
def isSubstr (pat : List Char) : List Char → Bool
  | [] => pat.isEmpty
  | c :: tl => pat.isPrefixOf (c :: tl) || isSubstr pat tl

def pyInStr (pat s : String) : Bool := isSubstr pat.data s.data

/-- Python `sep.join(l)`. -/
def joinSep (sep : String) : List String → String
  | [] => ""
  | [x] => x
  | x :: y :: rest => x ++ sep ++ joinSep sep (y :: rest)

/-! ## Data model (the JSON schedule document, `bot.py` lines 21, 59-66) -/

/-- One activity object of the schedule document.  Fields are optional
because the Python code reads them with `act.get(key, default)`. -/
structure Activity where
  subject : Option String := none
  type : Option String := none
  location : Option String := none
  batches : Option (List String) := none
deriving DecidableEq

/-- One time-slot object: `slot.get("time", "")`, `slot.get("activities", [])`. -/
structure Slot where
  time : Option String := none
  activities : Option (List Activity) := none
deriving DecidableEq

/-- The parsed schedule document: a mapping from day name to slot list,
modelled as an association list (JSON object keys are unique). -/
abbrev Schedule := List (String × List Slot)

/-- Python `schedule.get(day_name)` (returns `None` when the key is absent). -/
def scheduleGet (schedule : Schedule) (day_name : String) : Option (List Slot) :=
  (schedule.find? (fun p => p.1 == day_name)).map Prod.snd

/-- `BATCHES = ["A", "B", "C", "D", "E"]` (line 21). -/
def BATCHES : List String := ["A", "B", "C", "D", "E"]

/-! ## Time parsing (lines 38-45 and 173-179) -/

/-- `hour, minute = map(int, s.split(':')); hour * 60 + minute`, `None` on
any failure (wrong number of parts or a part `int` cannot parse). -/
def parseHM (s : String) : Option Int :=
  match pySplit ':' s with
  | [h, m] =>
    match pyInt h, pyInt m with
    | some hh, some mm => some (hh * 60 + mm)
    | _, _ => none
  | _ => none

/-- `parse_time_to_minutes` (lines 173-179). -/
def parse_time_to_minutes (time_str : String) : Option Int := parseHM time_str

/-- `parse_time_for_sorting` (lines 38-45): start of `'HH:MM-HH:MM'`, with
the sentinel `999` on any parse failure ("Put unparseable times at the end"). -/
def parse_time_for_sorting (time_str : String) : Int :=
  (parseHM (pyStrip ((pySplit '-' time_str).headD ""))).getD 999

/-- The start minute the imminent-event detector assigns to a time-range
string: `None` when the string has no `'-'` (line 202) or when
`parse_time_to_minutes` fails on the stripped first part (lines 205-209). -/
def timeRangeStart (time_range : String) : Option Int :=
  if time_range.data.contains '-' then
    parse_time_to_minutes (pyStrip ((pySplit '-' time_range).headD ""))
  else none

/-! ## Audience resolution and agenda building (lines 47-111) -/

/-- Python `set(l1) == set(l2)` for string lists: mutual membership. -/
def setEqB (l1 l2 : List String) : Bool :=
  l1.all (fun x => l2.contains x) && l2.all (fun x => l1.contains x)

/-- The audience check of line 67:
`"All" in batches or batch in batches or set(batches) == set(BATCHES)`. -/
def appliesCheck (batches : List String) (batch : String) : Bool :=
  batches.contains "All" || batches.contains batch || setEqB batches BATCHES

/-- The wildcard check of line 284 of `send_preclass_notifications`:
`"All" in batches or set(batches) == set(BATCHES)`. -/
def preclassAllCheck (batches : List String) : Bool :=
  batches.contains "All" || setEqB batches BATCHES

/-- `applicable_activities` for one slot (lines 63-68). -/
def applicableActivities (activities : List Activity) (batch : String) : List Activity :=
  activities.filter (fun act => appliesCheck (act.batches.getD []) batch)

/-- The `batch_slots` accumulation loop (lines 59-71): slots whose filtered
activity list is empty are dropped. -/
def batchSlots (day : List Slot) (batch : String) : List (String × List Activity) :=
  match day with
  | [] => []
  | slot :: rest =>
    let time_str := slot.time.getD ""
    let applicable := applicableActivities (slot.activities.getD []) batch
    if applicable.isEmpty then batchSlots rest batch
    else (time_str, applicable) :: batchSlots rest batch

/-- Insert `a` into an already sorted list, before the first element whose
key is `≥ key a`. -/
def orderedInsertKey {α : Type} (key : α → Int) (a : α) : List α → List α
  | [] => [a]
  | b :: l => if key a ≤ key b then a :: b :: l else b :: orderedInsertKey key a l

/-- Python's `list.sort(key=...)`: the (unique) stable ascending sort by
key, realised as a stable insertion sort. -/
def sortByKey {α : Type} (key : α → Int) : List α → List α
  | [] => []
  | a :: l => orderedInsertKey key a (sortByKey key l)

/-- The emoji chain of lines 95 and 238 (`"Lecture" in t`, ... substring tests
on the raw, unescaped type field). -/
def typeEmoji (t : String) : String :=
  if pyInStr "Lecture" t then "📖"
  else if pyInStr "Practical" t then "🧪"
  else if pyInStr "Tutorial" t then "📝"
  else "🔬"

/-- The two lines appended per activity (lines 88-97). -/
def activityLines : List Activity → List String
  | [] => []
  | act :: rest =>
    ("   " ++ typeEmoji (act.type.getD "") ++ " <b>" ++ htmlEscape (act.subject.getD "Unknown")
        ++ "</b> <i>(" ++ htmlEscape (act.type.getD "") ++ ")</i>")
      :: ("   📍 " ++ htmlEscape (act.location.getD "TBA"))
      :: activityLines rest

/-- The lines appended per sorted slot (lines 84-98): a time line, the
activity lines, then an empty spacing line. -/
def slotLines : List (String × List Activity) → List String
  | [] => []
  | (time_str, activities) :: rest =>
    ("🕐 <code>" ++ htmlEscape time_str ++ "</code>")
      :: (activityLines activities ++ [""] ++ slotLines rest)

/-- The holiday variant (line 56). -/
def holidayMessage (batch day_name : String) : String :=
  "<b>📚 SOMC \x2763 – Batch " ++ htmlEscape batch ++ "</b>\n<i>📅 "
    ++ htmlEscape day_name ++ "</i>\n\n🎉 <b>No classes scheduled today!</b> (Holiday)"

/-- The no-classes-for-this-batch variant (line 74). -/
def noClassesMessage (batch day_name : String) : String :=
  "<b>📚 SOMC \x2763 – Batch " ++ htmlEscape batch ++ "</b>\n<i>📅 "
    ++ htmlEscape day_name ++ "</i>\n\n😴 <b>No classes scheduled for this batch today!</b>"

/-- `compose_batch_message` (lines 47-103).  Python's `if not day:` is true
both when the key is absent (`None`) and when its slot list is empty. -/
def compose_batch_message (schedule : Schedule) (day_name batch : String) : String :=
  match scheduleGet schedule day_name with
  | none => holidayMessage batch day_name
  | some day =>
    if day.isEmpty then holidayMessage batch day_name
    else
      let bslots := batchSlots day batch
      if bslots.isEmpty then noClassesMessage batch day_name
      else
        let sorted := sortByKey (fun x => parse_time_for_sorting x.1) bslots
        joinSep "\n"
          (("<b>📚 SOMC \x2763 – Batch " ++ htmlEscape batch ++ "</b>")
            :: ("<i>📅 " ++ htmlEscape day_name ++ "</i>\n")
            :: (slotLines sorted
                ++ ["✨ <b>Have a productive day!</b>", "<i>— Mahin, SOMC\x2763</i>"]))

/-- `build_batch_messages` (lines 105-111): one `(batch, message)` pair per
roster member. -/
def build_batch_messages (schedule : Schedule) (day_name : String) : List (String × String) :=
  BATCHES.map (fun batch => (batch, compose_batch_message schedule day_name batch))

/-! ## Imminent-event detection (lines 181-227) -/

/-- One element of the `upcoming_classes` list (lines 217-225). -/
structure UpcomingClass where
  time : String
  start_time : String
  subject : String
  type : String
  location : String
  batches : List String
  minutes_until : Int
deriving DecidableEq

/-- The record appended for one activity of a qualifying slot (lines
217-225): the raw `batches` list is carried over with no filtering. -/
def eventOf (time_range start_time : String) (time_until_class : Int)
    (act : Activity) : UpcomingClass :=
  { time := time_range
    start_time := start_time
    subject := act.subject.getD "Unknown"
    type := act.type.getD ""
    location := act.location.getD "TBA"
    batches := act.batches.getD []
    minutes_until := time_until_class }

/-- The body of the slot loop of `get_upcoming_classes` (lines 200-225):
skip the slot when its time string has no `'-'` or its start does not
parse; otherwise, when `0 <= start - current <= notify_minutes_before`,
emit one record per activity (with no filtering of `batches`). -/
def slotEvents (current_minutes notify_minutes_before : Int) (slot : Slot) :
    List UpcomingClass :=
  let time_range := slot.time.getD ""
  if !(time_range.data.contains '-') then []
  else
    let start_time := pyStrip ((pySplit '-' time_range).headD "")
    match parse_time_to_minutes start_time with
    | none => []
    | some start_minutes =>
      let time_until_class := start_minutes - current_minutes
      if 0 ≤ time_until_class ∧ time_until_class ≤ notify_minutes_before then
        (slot.activities.getD []).map (eventOf time_range start_time time_until_class)
      else []

def upcomingFromSlots (current_minutes notify_minutes_before : Int) :
    List Slot → List UpcomingClass
  | [] => []
  | slot :: rest =>
    slotEvents current_minutes notify_minutes_before slot
      ++ upcomingFromSlots current_minutes notify_minutes_before rest

/-- `get_upcoming_classes` (lines 181-227), with the wall-clock minute
(`now.hour * 60 + now.minute`) and the lookahead passed as parameters.
`if not day: return []` covers both the absent and the empty day. -/
def get_upcoming_classes (schedule : Schedule) (day_name : String)
    (current_minutes notify_minutes_before : Int) : List UpcomingClass :=
  match scheduleGet schedule day_name with
  | none => []
  | some day =>
    if day.isEmpty then []
    else upcomingFromSlots current_minutes notify_minutes_before day

/-! ## Message composition for alerts (lines 229-263) -/

/-- `compose_preclass_message` (lines 229-263). -/
def compose_preclass_message (ci : UpcomingClass) : String :=
  let subject := htmlEscape ci.subject
  let activity_type := htmlEscape ci.type
  let location := htmlEscape ci.location
  let start_time := htmlEscape ci.start_time
  let mu := ci.minutes_until
  let urgency :=
    if mu ≤ 5 then "🔴 <b>STARTING SOON!</b>"
    else if mu ≤ 10 then "🟡 <b>Starting in a few minutes</b>"
    else "🔔 <b>Upcoming class</b>"
  joinSep "\n"
    [urgency,
     typeEmoji ci.type ++ " <b>" ++ subject ++ "</b> <i>(" ++ activity_type ++ ")</i>",
     "🕐 Starts at <code>" ++ start_time ++ "</code>",
     "📍 Location: <b>" ++ location ++ "</b>",
     (if mu ≤ 1 then "\n⏰ <b>Starting NOW!</b> \n"
      else "\n⏰ <i>Starts in " ++ pyStrInt mu ++ " minute"
        ++ (if mu ≠ 1 then "s" else "") ++ "</i>\n"),
     "🏃‍♂️ <i>Get ready and head to class!</i>",
     "<i>— SOMC\x2763 Bot</i>"]

/-- The `batch_list` grouping of lines 283-287. -/
def preclassBatchList (batches : List String) : List String :=
  if preclassAllCheck batches then ["All Batches"] else batches

/-- The `final_message` header of lines 300-304 (note: `batch_list` is
interpolated raw, with no `html.escape`). -/
def preclassFinalMessage (batch_list : List String) (message : String) : String :=
  if batch_list.length == 1 && batch_list.headD "" == "All Batches" then
    "🎆 <b>All Batches (A, B, C, D, E)</b>\n\n" ++ message
  else
    "🎆 <b>Batch" ++ (if batch_list.length > 1 then "es" else "") ++ " "
      ++ joinSep ", " batch_list ++ "</b>\n\n" ++ message

/-! ## Dispatch (lines 129-166 and 265-324) -/

/-- Outcome of one `requests.post`: an HTTP response or a raised exception. -/
inductive PostResult where
  | resp (status : Nat) (text : String)
  | exc (err : String)
deriving DecidableEq

/-- Line 153: only `status_code == 200` counts as a successful send. -/
def isOk200 : PostResult → Bool
  | .resp 200 _ => true
  | _ => false

/-- Observable outcome of `send_telegram_messages`. -/
structure DispatchReport where
  fallback : Bool
  dumped : List String
  attempted : List (String × String)
  successful_sends : Nat
  total : Nat
deriving DecidableEq

/-- The send loop of lines 142-164: every message is posted; a non-200
response or an exception is recorded and the loop continues (the
`try`/`except` catches everything the POST can raise). -/
def sendLoop (transport : Nat → PostResult) (i : Nat) :
    List (String × String) → List (String × String) × Nat
  | [] => ([], 0)
  | m :: rest =>
    let outcome := transport i
    let r := sendLoop transport (i + 1) rest
    (m :: r.1, (if isOk200 outcome then 1 else 0) + r.2)

/-- `send_telegram_messages` (lines 129-166).  With a missing credential
(modelled as `""`, Python falsiness of the empty string) every composed
message is printed to the console and nothing is posted. -/
def send_telegram_messages (token chat_id : String) (transport : Nat → PostResult)
    (messages : List (String × String)) : DispatchReport :=
  if token == "" || chat_id == "" then
    { fallback := true
      dumped := messages.map Prod.snd
      attempted := []
      successful_sends := 0
      total := messages.length }
  else
    let r := sendLoop transport 0 messages
    { fallback := false
      dumped := []
      attempted := r.1
      successful_sends := r.2
      total := messages.length }

/-- Observable outcome of `send_preclass_notifications` for a given
`upcoming` list: diagnostic dumps (target-batches label and message, lines
292-296), posted `final_message` texts (lines 297-314), and the count of
200 responses (`notifications_sent`). -/
structure PreclassReport where
  dumped : List (String × String)
  posts : List String
  notifications_sent : Nat
deriving DecidableEq

def preclassLoop (token chat_id : String) (transport : Nat → PostResult) (i : Nat) :
    List UpcomingClass → PreclassReport
  | [] => { dumped := [], posts := [], notifications_sent := 0 }
  | ci :: rest =>
    let batch_list := preclassBatchList ci.batches
    let message := compose_preclass_message ci
    if token == "" || chat_id == "" then
      let r := preclassLoop token chat_id transport i rest
      { dumped := (joinSep ", " batch_list, message) :: r.dumped
        posts := r.posts
        notifications_sent := r.notifications_sent }
    else
      let final_message := preclassFinalMessage batch_list message
      let r := preclassLoop token chat_id transport (i + 1) rest
      { dumped := r.dumped
        posts := final_message :: r.posts
        notifications_sent := (if isOk200 (transport i) then 1 else 0) + r.notifications_sent }

/-- The dispatch part of `send_preclass_notifications` (lines 278-324),
with the already detected `upcoming` list as input. -/
def send_preclass_notifications (token chat_id : String) (transport : Nat → PostResult)
    (upcoming : List UpcomingClass) : PreclassReport :=
  preclassLoop token chat_id transport 0 upcoming

/-! ## Lemmas about `htmlEscape` -/

theorem escChar_of_not_escapable {c : Char} (h : escapable c = false) : escChar c = [c] := by
  simp only [escapable, Bool.or_eq_false_iff, beq_eq_false_iff_ne] at h
  obtain ⟨⟨⟨⟨h1, h2⟩, h3⟩, h4⟩, h5⟩ := h
  simp [escChar, h1, h2, h3, h4, h5]

theorem escChar_of_escapable {c : Char} (h : escapable c = true) :
    ∃ r, escChar c = '&' :: r ∧ r ≠ [] := by
  simp only [escapable, Bool.or_eq_true, beq_iff_eq] at h
  rcases h with ((((h | h) | h) | h) | h) <;> subst h
  · exact ⟨"amp;".data, by decide, by decide⟩
  · exact ⟨"lt;".data, by decide, by decide⟩
  · exact ⟨"gt;".data, by decide, by decide⟩
  · exact ⟨"quot;".data, by decide, by decide⟩
  · exact ⟨"#x27;".data, by decide, by decide⟩

theorem escChar_ne_nil (c : Char) : escChar c ≠ [] := by
  by_cases h : escapable c = true
  · obtain ⟨r, hr, -⟩ := escChar_of_escapable h
    simp [hr]
  · rw [escChar_of_not_escapable (Bool.eq_false_iff.mpr h)]
    simp

theorem length_le_escList (l : List Char) : l.length ≤ (escList l).length := by
  induction l with
  | nil => simp [escList]
  | cons c l ih =>
    have h1 : 1 ≤ (escChar c).length := by
      rcases hn : escChar c with _ | ⟨x, xs⟩
      · exact absurd hn (escChar_ne_nil c)
      · simp
    simp only [escList, List.length_append, List.length_cons]
    omega

theorem escList_eq_self_iff (l : List Char) :
    escList l = l ↔ ∀ c ∈ l, escapable c = false := by
  induction l with
  | nil => simp [escList]
  | cons c l ih =>
    constructor
    · intro h
      by_cases hc : escapable c = true
      · exfalso
        obtain ⟨r, hr, hrne⟩ := escChar_of_escapable hc
        simp only [escList, hr, List.cons_append, List.cons.injEq] at h
        obtain ⟨hamp, htail⟩ := h
        subst hamp
        have hr' : '&' :: r = escChar '&' := hr.symm
        have : r = "amp;".data := by
          have : ('&' :: r : List Char) = '&' :: "amp;".data := by
            rw [hr']; decide
          exact (List.cons.injEq _ _ _ _).mp this |>.2
        subst this
        have hlen := length_le_escList l
        have hlen2 : l.length = ("amp;".data ++ escList l).length := by rw [htail]
        rw [List.length_append] at hlen2
        have hfour : ("amp;".data : List Char).length = 4 := by decide
        rw [hfour] at hlen2
        omega
      · have hc' : escapable c = false := Bool.eq_false_iff.mpr hc
        rw [escList, escChar_of_not_escapable hc'] at h
        simp only [List.cons_append, List.nil_append, List.cons.injEq, true_and] at h
        intro x hx
        rcases List.mem_cons.mp hx with hx | hx
        · subst hx; exact hc'
        · exact (ih.mp h) x hx
    · intro h
      have h1 : escChar c = [c] := escChar_of_not_escapable (h c (List.mem_cons_self c l))
      have h2 : escList l = l := ih.mpr (fun x hx => h x (List.mem_cons_of_mem c hx))
      simp [escList, h1, h2]

theorem amp_mem_escList {l : List Char} {c : Char} (hc : c ∈ l)
    (he : escapable c = true) : '&' ∈ escList l := by
  induction l with
  | nil => simp at hc
  | cons d l ih =>
    rcases List.mem_cons.mp hc with h | h
    · subst h
      obtain ⟨r, hr, -⟩ := escChar_of_escapable he
      simp [escList, hr]
    · simp only [escList, List.mem_append]
      exact Or.inr (ih h)

theorem escList_idem_iff (l : List Char) :
    escList (escList l) = escList l ↔ ∀ c ∈ l, escapable c = false := by
  constructor
  · intro h
    by_contra hex
    push_neg at hex
    obtain ⟨c, hc, hce⟩ := hex
    have hce' : escapable c = true := Bool.not_eq_false _ |>.mp hce
    have hamp : '&' ∈ escList l := amp_mem_escList hc hce'
    have := (escList_eq_self_iff (escList l)).mp h '&' hamp
    simp [escapable] at this
  · intro h
    have h2 : escList l = l := (escList_eq_self_iff l).mpr h
    rw [h2]
    exact h2

/-- C8 counterexample: escaping is not idempotent — re-escaping the
already escaped string `"&amp;"` double-escapes it to `"&amp;amp;"`. -/
theorem escape_not_idempotent :
    htmlEscape (htmlEscape "&") ≠ htmlEscape "&" ∧ htmlEscape (htmlEscape "&") = "&amp;amp;" := by
  constructor
  · decide
  · decide

/-- C8 (amended): `htmlEscape` is idempotent exactly on the strings that
contain none of the escapable characters `&`, `<`, `>`, `"`, `'` (on which
it acts as the identity); on any string containing one of them a second
escape strictly changes the string (double-escaping). -/
theorem escape_idempotent_iff (s : String) :
    htmlEscape (htmlEscape s) = htmlEscape s ↔ ∀ c ∈ s.data, escapable c = false := by
  rw [String.ext_iff]
  show escList (escList s.data) = escList s.data ↔ _
  exact escList_idem_iff s.data

/-- C8 witness: the amended theorem applied to the escapable-free string
`"abc"`. -/
theorem escape_idempotent_iff_witness :
    htmlEscape (htmlEscape "abc") = htmlEscape "abc" :=
  (escape_idempotent_iff "abc").mpr (by decide)

/-! ## Audience resolution (C1) -/

theorem setEqB_iff (l1 l2 : List String) :
    setEqB l1 l2 = true ↔ ((∀ x ∈ l1, x ∈ l2) ∧ ∀ x ∈ l2, x ∈ l1) := by
  simp [setEqB, List.all_eq_true]

theorem appliesCheck_iff (batches : List String) (batch : String) :
    appliesCheck batches batch = true ↔
      "All" ∈ batches ∨ batch ∈ batches
        ∨ ((∀ x ∈ batches, x ∈ BATCHES) ∧ ∀ x ∈ BATCHES, x ∈ batches) := by
  simp [appliesCheck, setEqB, List.all_eq_true, or_assoc]

/-- C1 counterexample: for `batches = ["A","B","C","D","E","F"]` (the full
roster plus one extra identifier) the agenda-site check of line 67 applies
the activity to every audience of the roster, while the grouping check at
the imminent-event composition site (line 284) does not classify it as
applying to every audience — the two call sites disagree. -/
theorem audience_sites_disagree :
    (∀ a ∈ BATCHES, appliesCheck ["A", "B", "C", "D", "E", "F"] a = true)
      ∧ preclassAllCheck ["A", "B", "C", "D", "E", "F"] = false := by
  constructor
  · decide
  · decide

/-- C1 (amended): the agenda-site check (line 67) is exactly the stated
three-way rule ("All" present, the audience present, or set equality with
the roster); the composition-site grouping (line 284) keeps only the two
wildcard branches of that rule, so it implies that the activity applies to
every roster audience; and the two call sites agree on "applies to every
audience" whenever every entry of `batches` is a roster member or the
wildcard marker — disagreement is possible only for a `batches` list
mentioning an identifier outside the roster. -/
theorem audience_check_three_way :
    (∀ (batches : List String) (a : String),
      appliesCheck batches a = true ↔
        "All" ∈ batches ∨ a ∈ batches
          ∨ ((∀ x ∈ batches, x ∈ BATCHES) ∧ ∀ x ∈ BATCHES, x ∈ batches))
    ∧ (∀ batches : List String, preclassAllCheck batches = true →
        ∀ a ∈ BATCHES, appliesCheck batches a = true)
    ∧ (∀ batches : List String, (∀ b ∈ batches, b ∈ BATCHES ∨ b = "All") →
        (preclassAllCheck batches = true ↔ ∀ a ∈ BATCHES, appliesCheck batches a = true)) := by
  have impl : ∀ batches : List String, preclassAllCheck batches = true →
      ∀ a ∈ BATCHES, appliesCheck batches a = true := by
    intro batches h a _
    rcases Bool.or_eq_true _ _ |>.mp h with h1 | h1
    · have h2 : "All" ∈ batches := by simpa using h1
      simp [appliesCheck, h2]
    · simp only [appliesCheck, Bool.or_eq_true]
      exact Or.inr h1
  refine ⟨appliesCheck_iff, impl, ?_⟩
  intro batches hsub
  constructor
  · intro h
    exact impl batches h
  · intro hall
    by_cases hAll : batches.contains "All" = true
    · have h2 : "All" ∈ batches := by simpa using hAll
      simp [preclassAllCheck, h2]
    · have hAll' : "All" ∉ batches := by
        intro hmem
        exact hAll (by simpa using hmem)
      by_cases hset : setEqB batches BATCHES = true
      · simp [preclassAllCheck, hset]
      · have hmemall : ∀ a ∈ BATCHES, a ∈ batches := by
          intro a ha
          rcases (appliesCheck_iff batches a).mp (hall a ha) with h | h | h
          · exact absurd h hAll'
          · exact h
          · exact h.2 a ha
        have hsubset : ∀ b ∈ batches, b ∈ BATCHES := by
          intro b hb
          rcases hsub b hb with h | h
          · exact h
          · exact absurd (h ▸ hb) hAll'
        have : setEqB batches BATCHES = true := (setEqB_iff _ _).mpr ⟨hsubset, hmemall⟩
        exact absurd this hset

/-- C1 witness: the amended theorem applied to the explicit full-roster
enumeration `["B","A","C","D","E"]` and to audience `"A"`. -/
theorem audience_check_three_way_witness :
    preclassAllCheck ["B", "A", "C", "D", "E"] = true
      ∧ appliesCheck ["B", "A", "C", "D", "E"] "A" = true :=
  ⟨(audience_check_three_way.2.2 ["B", "A", "C", "D", "E"] (by decide)).mpr (by decide),
   audience_check_three_way.2.1 ["B", "A", "C", "D", "E"] (by decide) "A" (by decide)⟩

/-! ## Agenda ordering of unparseable times (C2) -/

/-- C2: the sentinel `999` assigned to unparseable time strings (line 45,
"Put unparseable times at the end") is *not* past all valid minute-of-day
values: a slot labelled `"TBD"` gets key 999 and is sorted *before* a slot
starting at 17:00 (key 1020), so unparseable entries do not always appear
last in the agenda. -/
theorem unparseable_time_not_sorted_last :
    parse_time_for_sorting "TBD" = 999
      ∧ parse_time_for_sorting "17:00-18:00" = 1020
      ∧ sortByKey (fun x => parse_time_for_sorting x.1)
          [("17:00-18:00", [{ subject := some "Physiology", batches := some ["A"] : Activity }]),
           ("TBD", [{ subject := some "Anatomy", batches := some ["A"] : Activity }])]
        = [("TBD", [{ subject := some "Anatomy", batches := some ["A"] : Activity }]),
           ("17:00-18:00", [{ subject := some "Physiology", batches := some ["A"] : Activity }])] := by
  refine ⟨by decide, by decide, by decide⟩

/-! ## Holiday versus no-classes rendering (C4) -/

theorem batchSlots_eq_nil {day : List Slot} {batch : String}
    (h : ∀ slot ∈ day, applicableActivities (slot.activities.getD []) batch = []) :
    batchSlots day batch = [] := by
  induction day with
  | nil => rfl
  | cons slot rest ih =>
    have h1 : applicableActivities (slot.activities.getD []) batch = [] :=
      h slot (List.mem_cons_self slot rest)
    have h2 : batchSlots rest batch = [] :=
      ih (fun s hs => h s (List.mem_cons_of_mem slot hs))
    simp [batchSlots, h1, h2]

theorem holidayMessage_ne_noClassesMessage (b d b' d' : String) :
    holidayMessage b d ≠ noClassesMessage b' d' := by
  intro h
  have h1 : (holidayMessage b d).data.getLast? = some ')' := by
    show ((_ ++ "</i>\n\n🎉 <b>No classes scheduled today!</b> (Holiday)")).data.getLast? = _
    rw [String.data_append, List.getLast?_append]
    rfl
  have h2 : (noClassesMessage b' d').data.getLast? = some '>' := by
    show ((_ ++ "</i>\n\n😴 <b>No classes scheduled for this batch today!</b>")).data.getLast? = _
    rw [String.data_append, List.getLast?_append]
    rfl
  rw [h, h2] at h1
  simp at h1

/-- C4 counterexample: a day key that is present with an empty slot list
*is* rendered as the holiday variant (Python's `if not day:` treats the
empty list like the absent key), identically to the truly absent day. -/
theorem present_empty_day_renders_holiday :
    compose_batch_message [("Monday", [])] "Monday" "A" = holidayMessage "A" "Monday"
      ∧ compose_batch_message [] "Monday" "A" = holidayMessage "A" "Monday" := by
  constructor
  · rfl
  · rfl

/-- C4 (amended): an absent day — and likewise a present day with an empty
slot list — yields the holiday variant; a day present with a nonempty slot
list all of whose slots filter to zero applicable activities for the
audience yields the distinct no-classes-for-this-batch variant; and the
two variants are never identical strings (for any interpolated audience
and day names). -/
theorem agenda_holiday_vs_no_classes (schedule : Schedule) (day_name batch : String) :
    (scheduleGet schedule day_name = none →
      compose_batch_message schedule day_name batch = holidayMessage batch day_name)
    ∧ (scheduleGet schedule day_name = some [] →
      compose_batch_message schedule day_name batch = holidayMessage batch day_name)
    ∧ (∀ day, scheduleGet schedule day_name = some day → day ≠ [] →
        (∀ slot ∈ day, applicableActivities (slot.activities.getD []) batch = []) →
        compose_batch_message schedule day_name batch = noClassesMessage batch day_name)
    ∧ (∀ b d b' d', holidayMessage b d ≠ noClassesMessage b' d') := by
  refine ⟨?_, ?_, ?_, holidayMessage_ne_noClassesMessage⟩
  · intro h
    simp [compose_batch_message, h]
  · intro h
    simp [compose_batch_message, h]
  · intro day hday hne hfilter
    have hbs : batchSlots day batch = [] := batchSlots_eq_nil hfilter
    simp [compose_batch_message, hday, hne, hbs]

/-- C4 witness: the amended theorem applied to a concrete one-slot Monday
whose only activity addresses batches A and B, rendered for audience C. -/
theorem agenda_holiday_vs_no_classes_witness :
    compose_batch_message
        [("Monday", [{ time := some "09:00-10:00",
                       activities := some [{ subject := some "Anatomy",
                                             batches := some ["A", "B"] }] }])]
        "Monday" "C"
      = noClassesMessage "C" "Monday" :=
  (agenda_holiday_vs_no_classes _ "Monday" "C").2.2.1 _ rfl (by decide) (by decide)

/-! ## Dispatcher: fail-open per message (C6) and credential fallback (C7) -/

theorem sendLoop_spec (transport : Nat → PostResult) (messages : List (String × String)) :
    ∀ i : Nat,
      (sendLoop transport i messages).1 = messages
      ∧ (sendLoop transport i messages).2
        = List.countP (fun k => isOk200 (transport (i + k))) (List.range messages.length) := by
  induction messages with
  | nil => intro i; simp [sendLoop]
  | cons m rest ih =>
    intro i
    obtain ⟨h1, h2⟩ := ih (i + 1)
    refine ⟨by simp [sendLoop, h1], ?_⟩
    simp only [sendLoop, h2, List.length_cons]
    rw [List.range_succ_eq_map]
    rw [List.countP_cons, List.countP_map]
    have hfun : ((fun k => isOk200 (transport (i + k))) ∘ Nat.succ)
        = fun k => isOk200 (transport (i + 1 + k)) := by
      funext k
      have : i + Nat.succ k = i + 1 + k := by omega
      simp [Function.comp, this]
    rw [hfun]
    simp only [Nat.add_zero]
    omega

/-- C6: with both credentials configured, every message handed to the
dispatcher is attempted, in order, regardless of earlier per-message
failures (a non-200 response or a caught transport exception is recorded
and the loop continues with the next message), and the final summary
counts exactly the posts that returned status 200 out of all messages;
the dispatcher is a total function, so no send failure propagates out. -/
theorem dispatcher_attempts_all (token chat_id : String) (transport : Nat → PostResult)
    (messages : List (String × String)) (htoken : token ≠ "") (hchat : chat_id ≠ "") :
    (send_telegram_messages token chat_id transport messages).attempted = messages
    ∧ (send_telegram_messages token chat_id transport messages).successful_sends
      = List.countP (fun k => isOk200 (transport k)) (List.range messages.length)
    ∧ (send_telegram_messages token chat_id transport messages).total = messages.length
    ∧ (send_telegram_messages token chat_id transport messages).fallback = false := by
  have hcond : (token == "" || chat_id == "") = false := by
    simp [htoken, hchat]
  obtain ⟨h1, h2⟩ := sendLoop_spec transport messages 0
  simp only [send_telegram_messages, hcond, Bool.false_eq_true, if_false]
  refine ⟨h1, ?_, by trivial, by trivial⟩
  rw [h2]
  simp

/-- Transport with a simulated failure on the third post. -/
def faultyTransport : Nat → PostResult :=
  fun i => if i == 2 then .exc "ConnectionError" else .resp 200 "ok"

def fiveMessages : List (String × String) :=
  [("A", "m1"), ("B", "m2"), ("C", "m3"), ("D", "m4"), ("E", "m5")]

/-- C6 witness: five messages with one simulated transport failure on the
third — all five are attempted and the summary reports 4 of 5. -/
theorem dispatcher_attempts_all_witness :
    (send_telegram_messages "token" "chat" faultyTransport fiveMessages).attempted = fiveMessages
    ∧ (send_telegram_messages "token" "chat" faultyTransport fiveMessages).successful_sends = 4
    ∧ (send_telegram_messages "token" "chat" faultyTransport fiveMessages).total = 5 := by
  obtain ⟨h1, h2, h3, -⟩ :=
    dispatcher_attempts_all "token" "chat" faultyTransport fiveMessages (by decide) (by decide)
  exact ⟨h1, h2.trans (by decide), h3.trans (by decide)⟩

theorem preclassLoop_no_credentials {token chat_id : String} (transport : Nat → PostResult)
    (h : (token == "" || chat_id == "") = true) (upcoming : List UpcomingClass) :
    ∀ i : Nat,
      preclassLoop token chat_id transport i upcoming
        = { dumped := upcoming.map (fun ci =>
              (joinSep ", " (preclassBatchList ci.batches), compose_preclass_message ci))
            posts := []
            notifications_sent := 0 } := by
  induction upcoming with
  | nil => intro i; simp [preclassLoop]
  | cons ci rest ih =>
    intro i
    simp [preclassLoop, h, ih i]

/-- C7: whenever either channel credential is absent (empty, hence falsy
in Python), both dispatch paths perform no network send: the daily path
dumps every composed batch message to the console and the pre-class path
dumps every composed alert (with its target-batches label) — both return
normally (they are total functions) with zero posts. -/
theorem missing_credentials_fallback (token chat_id : String) (transport : Nat → PostResult)
    (messages : List (String × String)) (upcoming : List UpcomingClass)
    (h : token = "" ∨ chat_id = "") :
    (send_telegram_messages token chat_id transport messages).attempted = []
    ∧ (send_telegram_messages token chat_id transport messages).fallback = true
    ∧ (send_telegram_messages token chat_id transport messages).dumped = messages.map Prod.snd
    ∧ (send_preclass_notifications token chat_id transport upcoming).posts = []
    ∧ (send_preclass_notifications token chat_id transport upcoming).dumped
      = upcoming.map (fun ci =>
          (joinSep ", " (preclassBatchList ci.batches), compose_preclass_message ci)) := by
  have hcond : (token == "" || chat_id == "") = true := by
    rcases h with h | h <;> simp [h]
  have hpre := preclassLoop_no_credentials transport hcond upcoming 0
  refine ⟨?_, ?_, ?_, ?_, ?_⟩
  · simp [send_telegram_messages, hcond]
  · simp [send_telegram_messages, hcond]
  · simp [send_telegram_messages, hcond]
  · simp [send_preclass_notifications, hpre]
  · simp [send_preclass_notifications, hpre]

/-- A concrete imminent-class record used by witnesses. -/
def sampleUpcoming : UpcomingClass :=
  { time := "09:00-10:00"
    start_time := "09:00"
    subject := "Anatomy"
    type := "Lecture"
    location := "Room 1"
    batches := ["A", "B"]
    minutes_until := 10 }

/-- C7 witness: with an empty bot token, one batch message and one alert
are both surfaced on the diagnostic sink and nothing is posted. -/
theorem missing_credentials_fallback_witness :
    (send_telegram_messages "" "chat" faultyTransport [("A", "hello")]).dumped = ["hello"]
    ∧ (send_preclass_notifications "" "chat" faultyTransport [sampleUpcoming]).posts = [] := by
  obtain ⟨-, -, h3, h4, -⟩ :=
    missing_credentials_fallback "" "chat" faultyTransport [("A", "hello")] [sampleUpcoming]
      (Or.inl rfl)
  exact ⟨h3.trans (by decide), h4⟩

/-! ## Imminent-event detection window (C3) -/

/-- The stripped first part of a time-range string (line 205). -/
def startPart (time_range : String) : String :=
  pyStrip ((pySplit '-' time_range).headD "")

theorem slotEvents_eq (cm L : Int) (slot : Slot) :
    slotEvents cm L slot =
      match timeRangeStart (slot.time.getD "") with
      | none => []
      | some S =>
        if 0 ≤ S - cm ∧ S - cm ≤ L then
          (slot.activities.getD []).map
            (eventOf (slot.time.getD "") (startPart (slot.time.getD "")) (S - cm))
        else [] := by
  unfold slotEvents timeRangeStart startPart
  by_cases hd : (slot.time.getD "").data.contains '-' = true
  · simp only [hd, Bool.not_true, Bool.false_eq_true, if_false, if_true]
  · have hd' : (slot.time.getD "").data.contains '-' = false := Bool.eq_false_iff.mpr hd
    simp only [hd', Bool.not_false, if_true, Bool.false_eq_true, if_false]

theorem mem_slotEvents {cm L : Int} {slot : Slot} {e : UpcomingClass} :
    e ∈ slotEvents cm L slot ↔
      ∃ S, timeRangeStart (slot.time.getD "") = some S
        ∧ (0 ≤ S - cm ∧ S - cm ≤ L)
        ∧ ∃ act ∈ slot.activities.getD [],
            e = eventOf (slot.time.getD "") (startPart (slot.time.getD "")) (S - cm) act := by
  rw [slotEvents_eq]
  cases hts : timeRangeStart (slot.time.getD "") with
  | none => simp
  | some S =>
    show (e ∈ if 0 ≤ S - cm ∧ S - cm ≤ L then
        List.map (eventOf (slot.time.getD "") (startPart (slot.time.getD "")) (S - cm))
          (slot.activities.getD []) else []) ↔ _
    by_cases hw : 0 ≤ S - cm ∧ S - cm ≤ L
    · rw [if_pos hw]
      constructor
      · intro he
        obtain ⟨act, hact, heq⟩ := List.mem_map.mp he
        exact ⟨S, rfl, hw, act, hact, heq.symm⟩
      · rintro ⟨S', hS', hw', act, hact, heq⟩
        have hSS : S = S' := Option.some.inj hS'
        subst hSS
        rw [heq]
        exact List.mem_map.mpr ⟨act, hact, rfl⟩
    · rw [if_neg hw]
      simp only [List.not_mem_nil, false_iff, not_exists]
      rintro S' ⟨hS', hw', -⟩
      have hSS : S = S' := Option.some.inj hS'
      subst hSS
      exact hw hw'

theorem mem_upcomingFromSlots {cm L : Int} {slots : List Slot} {e : UpcomingClass} :
    e ∈ upcomingFromSlots cm L slots ↔ ∃ slot ∈ slots, e ∈ slotEvents cm L slot := by
  induction slots with
  | nil => simp [upcomingFromSlots]
  | cons slot rest ih => simp [upcomingFromSlots, ih]

theorem get_upcoming_classes_eq {schedule : Schedule} {day_name : String}
    (cm L : Int) {slots : List Slot} (hday : scheduleGet schedule day_name = some slots) :
    get_upcoming_classes schedule day_name cm L = upcomingFromSlots cm L slots := by
  unfold get_upcoming_classes
  rw [hday]
  rcases slots with _ | ⟨s, rest⟩ <;> simp [upcomingFromSlots]

/-- C3: for a day present in the schedule, an event with time range `ts`
(whose detector-parsed start minute is `S`) appears in the detection
output iff `0 ≤ S - T ≤ L` (closed interval: both boundaries included) and
the day has a slot labelled `ts` with at least one activity; every such
event reports `minutes_until = S - T`; and a time range the detector
cannot parse (no `'-'`, or an unparseable start) never produces an event. -/
theorem imminent_window_iff (schedule : Schedule) (day_name : String) (T L : Int)
    (slots : List Slot) (hday : scheduleGet schedule day_name = some slots) (ts : String) :
    (∀ S, timeRangeStart ts = some S →
      ((∃ e ∈ get_upcoming_classes schedule day_name T L, e.time = ts) ↔
        (0 ≤ S - T ∧ S - T ≤ L
          ∧ ∃ slot ∈ slots, slot.time.getD "" = ts ∧ slot.activities.getD [] ≠ []))
      ∧ ∀ e ∈ get_upcoming_classes schedule day_name T L, e.time = ts →
          e.minutes_until = S - T)
    ∧ (timeRangeStart ts = none →
        ∀ e ∈ get_upcoming_classes schedule day_name T L, e.time ≠ ts) := by
  rw [get_upcoming_classes_eq T L hday]
  constructor
  · intro S hS
    constructor
    · constructor
      · rintro ⟨e, he, hets⟩
        obtain ⟨slot, hslot, hmem⟩ := mem_upcomingFromSlots.mp he
        obtain ⟨S', hS', hw, act, hact, rfl⟩ := mem_slotEvents.mp hmem
        have hts : slot.time.getD "" = ts := hets
        rw [hts] at hS'
        rw [hS] at hS'
        have hSS : S = S' := Option.some.inj hS'
        subst hSS
        exact ⟨hw.1, hw.2, slot, hslot, hts, by intro hnil; rw [hnil] at hact; simp at hact⟩
      · rintro ⟨h0, h1, slot, hslot, hts, hacts⟩
        rcases hempty : slot.activities.getD [] with _ | ⟨act, acts⟩
        · exact absurd hempty hacts
        · refine ⟨eventOf (slot.time.getD "") (startPart (slot.time.getD "")) (S - T) act,
            mem_upcomingFromSlots.mpr ⟨slot, hslot, mem_slotEvents.mpr
              ⟨S, by rw [hts]; exact hS, ⟨h0, h1⟩, act, by rw [hempty]; simp, rfl⟩⟩, hts⟩
    · rintro e he hets
      obtain ⟨slot, hslot, hmem⟩ := mem_upcomingFromSlots.mp he
      obtain ⟨S', hS', hw, act, hact, rfl⟩ := mem_slotEvents.mp hmem
      have hts : slot.time.getD "" = ts := hets
      rw [hts, hS] at hS'
      have hSS : S = S' := Option.some.inj hS'
      subst hSS
      rfl
  · rintro hnone e he hets
    obtain ⟨slot, hslot, hmem⟩ := mem_upcomingFromSlots.mp he
    obtain ⟨S', hS', -, act, hact, rfl⟩ := mem_slotEvents.mp hmem
    have hts : slot.time.getD "" = ts := hets
    rw [hts, hnone] at hS'
    exact Option.noConfusion hS'

/-- A concrete one-slot Monday schedule used by witnesses: one 09:00-10:00
Anatomy lecture for batches A and B. -/
def act1 : Activity :=
  { subject := some "Anatomy"
    type := some "Lecture"
    location := some "Room 1"
    batches := some ["A", "B"] }

def slot1 : Slot :=
  { time := some "09:00-10:00", activities := some [act1] }

def sched1 : Schedule := [("Monday", [slot1])]

/-- C3 witness: with the 09:00 (minute 540) slot and lookahead 15, the
event is detected at current minute 530 (delta 10), at 540 (delta 0) and
at 525 (delta 15, the boundary), but not at 524 (delta 16) nor at 541
(delta -1). -/
theorem imminent_window_iff_witness :
    get_upcoming_classes sched1 "Monday" 530 15 ≠ []
    ∧ get_upcoming_classes sched1 "Monday" 540 15 ≠ []
    ∧ get_upcoming_classes sched1 "Monday" 525 15 ≠ []
    ∧ get_upcoming_classes sched1 "Monday" 524 15 = []
    ∧ get_upcoming_classes sched1 "Monday" 541 15 = [] := by
  refine ⟨?_, ?_, ?_, by decide, by decide⟩
  · intro hnil
    obtain ⟨e, he, -⟩ := ((imminent_window_iff sched1 "Monday" 530 15 [slot1] rfl
      "09:00-10:00").1 540 (by decide)).1.mpr
        ⟨by decide, by decide, slot1, by decide, by decide, by decide⟩
    rw [hnil] at he
    simp at he
  · intro hnil
    obtain ⟨e, he, -⟩ := ((imminent_window_iff sched1 "Monday" 540 15 [slot1] rfl
      "09:00-10:00").1 540 (by decide)).1.mpr
        ⟨by decide, by decide, slot1, by decide, by decide, by decide⟩
    rw [hnil] at he
    simp at he
  · intro hnil
    obtain ⟨e, he, -⟩ := ((imminent_window_iff sched1 "Monday" 525 15 [slot1] rfl
      "09:00-10:00").1 540 (by decide)).1.mpr
        ⟨by decide, by decide, slot1, by decide, by decide, by decide⟩
    rw [hnil] at he
    simp at he

/-! ## The two time parsers disagree on dash-free strings (C9) -/

theorem splitOnCharL_no_sep {sep : Char} :
    ∀ {l : List Char}, l.contains sep = false → splitOnCharL sep l = [l] := by
  intro l
  induction l with
  | nil => intro _; rfl
  | cons x xs ih =>
    intro h
    rw [List.contains_cons, Bool.or_eq_false_iff] at h
    have h1 : (x == sep) = false := by
      cases hxe : x == sep with
      | false => rfl
      | true =>
        have hx : x = sep := eq_of_beq hxe
        subst hx
        simp at h
    rw [splitOnCharL]
    simp only [ih h.2, h1, Bool.false_eq_true, if_false]

theorem pySplit_no_sep {sep : Char} {s : String} (h : s.data.contains sep = false) :
    pySplit sep s = [s] := by
  unfold pySplit
  rw [splitOnCharL_no_sep h]
  rfl

theorem timeRangeStart_none {t : String} (h : t.data.contains '-' = false) :
    timeRangeStart t = none := by
  unfold timeRangeStart
  rw [h]
  simp

theorem batchSlots_mem {day : List Slot} {batch : String} {slot : Slot}
    (hmem : slot ∈ day)
    (hne : applicableActivities (slot.activities.getD []) batch ≠ []) :
    (slot.time.getD "", applicableActivities (slot.activities.getD []) batch)
      ∈ batchSlots day batch := by
  induction day with
  | nil => simp at hmem
  | cons s rest ih =>
    show _ ∈ (if (applicableActivities (s.activities.getD []) batch).isEmpty
      then batchSlots rest batch
      else (s.time.getD "", applicableActivities (s.activities.getD []) batch)
        :: batchSlots rest batch)
    rcases List.mem_cons.mp hmem with h | h
    · subst h
      have hfalse : (applicableActivities (slot.activities.getD []) batch).isEmpty = false :=
        Bool.eq_false_iff.mpr (fun hc => hne (List.isEmpty_iff.mp hc))
      rw [hfalse]
      simp
    · by_cases he : (applicableActivities (s.activities.getD []) batch).isEmpty = true
      · rw [if_pos he]
        exact ih h
      · rw [if_neg he]
        exact List.mem_cons_of_mem _ (ih h)

/-- C9: a slot whose time string has a parseable start but no `'-'`
separator is given its true start minute by the agenda sorting parser
(line 41 splits on `'-'` and parses the whole string), so the slot enters
the agenda at a valid sorted position whenever it has applicable
activities; yet the imminent-event detector skips any time string without
`'-'` (line 202), so such a slot never produces a pre-class alert. -/
theorem dash_free_time_agenda_but_never_alerts (t : String) (m : Int)
    (hnd : t.data.contains '-' = false)
    (hm : parseHM (pyStrip t) = some m) :
    parse_time_for_sorting t = m
    ∧ (∀ (day : List Slot) (slot : Slot) (batch : String),
        slot ∈ day → slot.time.getD "" = t →
        applicableActivities (slot.activities.getD []) batch ≠ [] →
        (t, applicableActivities (slot.activities.getD []) batch) ∈ batchSlots day batch)
    ∧ (∀ (schedule : Schedule) (day_name : String) (T L : Int),
        ∀ e ∈ get_upcoming_classes schedule day_name T L, e.time ≠ t) := by
  refine ⟨?_, ?_, ?_⟩
  · unfold parse_time_for_sorting
    rw [pySplit_no_sep hnd]
    simp only [List.headD_cons]
    rw [hm]
    rfl
  · intro day slot batch hmem hts hne
    have := batchSlots_mem hmem hne
    rw [hts] at this
    exact this
  · intro schedule day_name T L e he hets
    unfold get_upcoming_classes at he
    cases hg : scheduleGet schedule day_name with
    | none => rw [hg] at he; simp at he
    | some day =>
      rw [hg] at he
      have he' : e ∈ (if day.isEmpty = true then [] else upcomingFromSlots T L day) := he
      by_cases hd : day.isEmpty = true
      · rw [if_pos hd] at he'; simp at he'
      · rw [if_neg hd] at he'
        obtain ⟨slot, -, hmem⟩ := mem_upcomingFromSlots.mp he'
        obtain ⟨S, hS, -, act, -, rfl⟩ := mem_slotEvents.mp hmem
        have : slot.time.getD "" = t := hets
        rw [this, timeRangeStart_none hnd] at hS
        exact Option.noConfusion hS

/-- A slot labelled with the dash-free time string `"09:00"`. -/
def slotNoDash : Slot :=
  { time := some "09:00", activities := some [act1] }

def schedNoDash : Schedule := [("Monday", [slotNoDash])]

/-- C9 witness: the dash-free time `"09:00"` gets sorting key 540 (a valid
minute of day), its slot is listed in batch A's agenda slots, and the
detector produces nothing for it even right before 09:00. -/
theorem dash_free_time_agenda_but_never_alerts_witness :
    parse_time_for_sorting "09:00" = 540
    ∧ ("09:00", applicableActivities [act1] "A") ∈ batchSlots [slotNoDash] "A"
    ∧ get_upcoming_classes schedNoDash "Monday" 530 15 = [] := by
  have h := dash_free_time_agenda_but_never_alerts "09:00" 540 (by decide) (by decide)
  refine ⟨h.1, ?_, by decide⟩
  exact h.2.1 [slotNoDash] slotNoDash "A" (by decide) (by decide) (by decide)

/-! ## Escaping coverage of composed messages (C5)

All content interpolated through `htmlEscape` is free of `<` and `>`, so
the number of angle brackets in a composed message is determined by the
fixed message template alone (one count per markup tag), never by the
timetable content. -/

theorem count_append_str (a b : String) (c : Char) :
    (a ++ b).data.count c = a.data.count c + b.data.count c := by
  rw [String.data_append]
  exact List.count_append ..

theorem not_mem_escChar {ch : Char} (hch : ch = '<' ∨ ch = '>') (c : Char) :
    ch ∉ escChar c := by
  by_cases he : escapable c = true
  · simp only [escapable, Bool.or_eq_true, beq_iff_eq] at he
    rcases he with ((((he | he) | he) | he) | he) <;> subst he <;>
      rcases hch with rfl | rfl <;> decide
  · rw [escChar_of_not_escapable (Bool.eq_false_iff.mpr he)]
    simp only [escapable, Bool.or_eq_true, beq_iff_eq, not_or] at he
    intro hm
    rcases List.mem_singleton.mp hm with rfl
    rcases hch with rfl | rfl
    · exact he.1.1.1.2 rfl
    · exact he.1.1.2 rfl

theorem count_escList {ch : Char} (hch : ch = '<' ∨ ch = '>') (l : List Char) :
    (escList l).count ch = 0 := by
  induction l with
  | nil => rfl
  | cons c l ih =>
    rw [escList, List.count_append, ih, List.count_eq_zero.mpr (not_mem_escChar hch c)]

theorem count_htmlEscape {ch : Char} (hch : ch = '<' ∨ ch = '>') (s : String) :
    (htmlEscape s).data.count ch = 0 :=
  count_escList hch s.data

theorem count_typeEmoji {ch : Char} (hch : ch = '<' ∨ ch = '>') (t : String) :
    (typeEmoji t).data.count ch = 0 := by
  unfold typeEmoji
  split
  · rcases hch with rfl | rfl <;> decide
  · split
    · rcases hch with rfl | rfl <;> decide
    · split
      · rcases hch with rfl | rfl <;> decide
      · rcases hch with rfl | rfl <;> decide

theorem digitChar_count_zero {n : Nat} (h : n < 10) {ch : Char}
    (hch : ch = '<' ∨ ch = '>') : List.count ch [Nat.digitChar n] = 0 := by
  interval_cases n <;> rcases hch with rfl | rfl <;> decide

theorem count_natDigitsAux {ch : Char} (hch : ch = '<' ∨ ch = '>') :
    ∀ fuel n, (natDigitsAux fuel n).count ch = 0 := by
  intro fuel
  induction fuel with
  | zero => intro n; rfl
  | succ f ihf =>
    intro n
    rw [natDigitsAux]
    by_cases h : n < 10
    · rw [if_pos h]
      exact digitChar_count_zero h hch
    · rw [if_neg h, List.count_append, ihf (n / 10),
        digitChar_count_zero (Nat.mod_lt _ (by omega)) hch]

theorem count_pyStrInt {ch : Char} (hch : ch = '<' ∨ ch = '>') (i : Int) :
    (pyStrInt i).data.count ch = 0 := by
  cases i with
  | ofNat n => exact count_natDigitsAux hch (n + 1) n
  | negSucc n =>
    show (("-" : String) ++ pyStrNat (n + 1)).data.count ch = 0
    rw [count_append_str]
    have h1 : ("-" : String).data.count ch = 0 := by
      rcases hch with rfl | rfl <;> decide
    rw [h1, Nat.zero_add]
    exact count_natDigitsAux hch (n + 2) (n + 1)

theorem count_joinSep {sep : String} {ch : Char} (hsep : sep.data.count ch = 0) :
    ∀ L : List String, (joinSep sep L).data.count ch
      = (L.map (fun s => s.data.count ch)).sum := by
  intro L
  induction L with
  | nil => rfl
  | cons x rest ih =>
    cases rest with
    | nil => simp [joinSep]
    | cons y rest' =>
      show ((x ++ sep ++ joinSep sep (y :: rest')).data.count ch) = _
      rw [count_append_str, count_append_str, hsep, ih]
      simp only [List.map_cons, List.sum_cons]
      omega

theorem count_activityLines {ch : Char} (hch : ch = '<' ∨ ch = '>') (acts : List Activity) :
    ((activityLines acts).map (fun s => s.data.count ch)).sum = 4 * acts.length := by
  induction acts with
  | nil => simp [activityLines]
  | cons act rest ih =>
    have c1 : ("   " : String).data.count ch = 0 := by rcases hch with rfl | rfl <;> decide
    have c2 : (" <b>" : String).data.count ch = 1 := by rcases hch with rfl | rfl <;> decide
    have c3 : ("</b> <i>(" : String).data.count ch = 2 := by
      rcases hch with rfl | rfl <;> decide
    have c4 : (")</i>" : String).data.count ch = 1 := by rcases hch with rfl | rfl <;> decide
    have c5 : ("   📍 " : String).data.count ch = 0 := by rcases hch with rfl | rfl <;> decide
    simp only [activityLines, List.map_cons, List.sum_cons, List.length_cons]
    rw [ih, count_append_str, count_append_str, count_append_str, count_append_str,
      count_append_str, count_append_str, count_append_str,
      c1, c2, c3, c4, c5, count_typeEmoji hch, count_htmlEscape hch, count_htmlEscape hch,
      count_htmlEscape hch]
    omega

/-- Template angle-bracket budget of the sorted slot lines: 2 for the time
tag plus 4 per rendered activity. -/
def slotLinesAngles : List (String × List Activity) → Nat
  | [] => 0
  | (_, acts) :: rest => 2 + 4 * acts.length + slotLinesAngles rest

theorem count_slotLines {ch : Char} (hch : ch = '<' ∨ ch = '>') (sl : List (String × List Activity)) :
    ((slotLines sl).map (fun s => s.data.count ch)).sum = slotLinesAngles sl := by
  induction sl with
  | nil => rfl
  | cons p rest ih =>
    obtain ⟨ts, acts⟩ := p
    have c1 : ("🕐 <code>" : String).data.count ch = 1 := by
      rcases hch with rfl | rfl <;> decide
    have c2 : ("</code>" : String).data.count ch = 1 := by
      rcases hch with rfl | rfl <;> decide
    have c3 : ("" : String).data.count ch = 0 := by rcases hch with rfl | rfl <;> decide
    simp only [slotLines, slotLinesAngles, List.map_cons, List.sum_cons, List.map_append,
      List.sum_append]
    rw [count_append_str, count_append_str, c1, c2, count_htmlEscape hch,
      count_activityLines hch, ih]
    simp only [List.map_cons, List.sum_cons, List.map_nil, List.sum_nil, c3]
    omega

theorem count_holidayMessage {ch : Char} (hch : ch = '<' ∨ ch = '>') (b d : String) :
    (holidayMessage b d).data.count ch = 6 := by
  have c1 : ("<b>📚 SOMC \x2763 – Batch " : String).data.count ch = 1 := by
    rcases hch with rfl | rfl <;> decide
  have c2 : ("</b>\n<i>📅 " : String).data.count ch = 2 := by
    rcases hch with rfl | rfl <;> decide
  have c3 : ("</i>\n\n🎉 <b>No classes scheduled today!</b> (Holiday)" : String).data.count ch
      = 3 := by
    rcases hch with rfl | rfl <;> decide
  unfold holidayMessage
  rw [count_append_str, count_append_str, count_append_str, count_append_str,
    c1, c2, c3, count_htmlEscape hch, count_htmlEscape hch]

theorem count_noClassesMessage {ch : Char} (hch : ch = '<' ∨ ch = '>') (b d : String) :
    (noClassesMessage b d).data.count ch = 6 := by
  have c1 : ("<b>📚 SOMC \x2763 – Batch " : String).data.count ch = 1 := by
    rcases hch with rfl | rfl <;> decide
  have c2 : ("</b>\n<i>📅 " : String).data.count ch = 2 := by
    rcases hch with rfl | rfl <;> decide
  have c3 : ("</i>\n\n😴 <b>No classes scheduled for this batch today!</b>" : String).data.count ch
      = 3 := by
    rcases hch with rfl | rfl <;> decide
  unfold noClassesMessage
  rw [count_append_str, count_append_str, count_append_str, count_append_str,
    c1, c2, c3, count_htmlEscape hch, count_htmlEscape hch]

/-- Template angle-bracket budget of one composed batch message: 6 for the
holiday and no-classes variants, otherwise 8 for headers and footers plus
the per-slot budget. -/
def composeBatchAngles (schedule : Schedule) (day_name batch : String) : Nat :=
  match scheduleGet schedule day_name with
  | none => 6
  | some day =>
    if day.isEmpty then 6
    else if (batchSlots day batch).isEmpty then 6
    else 8 + slotLinesAngles (sortByKey (fun x => parse_time_for_sorting x.1) (batchSlots day batch))

theorem count_compose_batch_message {ch : Char} (hch : ch = '<' ∨ ch = '>')
    (schedule : Schedule) (day_name batch : String) :
    (compose_batch_message schedule day_name batch).data.count ch
      = composeBatchAngles schedule day_name batch := by
  cases hg : scheduleGet schedule day_name with
  | none =>
    have h1 : compose_batch_message schedule day_name batch = holidayMessage batch day_name := by
      unfold compose_batch_message
      rw [hg]
    have h2 : composeBatchAngles schedule day_name batch = 6 := by
      unfold composeBatchAngles
      rw [hg]
    rw [h1, h2, count_holidayMessage hch]
  | some day =>
    have h1 : compose_batch_message schedule day_name batch
        = (if day.isEmpty then holidayMessage batch day_name
           else if (batchSlots day batch).isEmpty then noClassesMessage batch day_name
           else joinSep "\n"
            (("<b>📚 SOMC \x2763 – Batch " ++ htmlEscape batch ++ "</b>")
              :: ("<i>📅 " ++ htmlEscape day_name ++ "</i>\n")
              :: (slotLines (sortByKey (fun x => parse_time_for_sorting x.1) (batchSlots day batch))
                ++ ["✨ <b>Have a productive day!</b>", "<i>— Mahin, SOMC\x2763</i>"]))) := by
      unfold compose_batch_message
      rw [hg]
    have h2 : composeBatchAngles schedule day_name batch
        = (if day.isEmpty then 6
           else if (batchSlots day batch).isEmpty then 6
           else 8 + slotLinesAngles
            (sortByKey (fun x => parse_time_for_sorting x.1) (batchSlots day batch))) := by
      unfold composeBatchAngles
      rw [hg]
    rw [h1, h2]
    by_cases hd : day.isEmpty = true
    · rw [if_pos hd, if_pos hd, count_holidayMessage hch]
    · rw [if_neg hd, if_neg hd]
      by_cases hb : (batchSlots day batch).isEmpty = true
      · rw [if_pos hb, if_pos hb, count_noClassesMessage hch]
      · rw [if_neg hb, if_neg hb]
        have hsep : ("\n" : String).data.count ch = 0 := by
          rcases hch with rfl | rfl <;> decide
        rw [count_joinSep hsep]
        have c1 : ("<b>📚 SOMC \x2763 – Batch " : String).data.count ch = 1 := by
          rcases hch with rfl | rfl <;> decide
        have c2 : ("</b>" : String).data.count ch = 1 := by
          rcases hch with rfl | rfl <;> decide
        have c3 : ("<i>📅 " : String).data.count ch = 1 := by
          rcases hch with rfl | rfl <;> decide
        have c4 : ("</i>\n" : String).data.count ch = 1 := by
          rcases hch with rfl | rfl <;> decide
        have c5 : ("✨ <b>Have a productive day!</b>" : String).data.count ch = 2 := by
          rcases hch with rfl | rfl <;> decide
        have c6 : ("<i>— Mahin, SOMC\x2763</i>" : String).data.count ch = 2 := by
          rcases hch with rfl | rfl <;> decide
        simp only [List.map_cons, List.sum_cons, List.map_append, List.sum_append,
          List.map_nil, List.sum_nil]
        rw [count_append_str, count_append_str, count_append_str, count_append_str,
          c1, c2, c3, c4, count_htmlEscape hch, count_htmlEscape hch,
          count_slotLines hch]
        simp only [List.map_cons, List.sum_cons, List.map_nil, List.sum_nil, c5, c6]
        omega

theorem count_compose_preclass_message {ch : Char} (hch : ch = '<' ∨ ch = '>')
    (ci : UpcomingClass) :
    (compose_preclass_message ci).data.count ch = 16 := by
  have hsep : ("\n" : String).data.count ch = 0 := by rcases hch with rfl | rfl <;> decide
  have h0 : compose_preclass_message ci = joinSep "\n"
      [(if ci.minutes_until ≤ 5 then "🔴 <b>STARTING SOON!</b>"
        else if ci.minutes_until ≤ 10 then "🟡 <b>Starting in a few minutes</b>"
        else "🔔 <b>Upcoming class</b>"),
       typeEmoji ci.type ++ " <b>" ++ htmlEscape ci.subject ++ "</b> <i>("
         ++ htmlEscape ci.type ++ ")</i>",
       "🕐 Starts at <code>" ++ htmlEscape ci.start_time ++ "</code>",
       "📍 Location: <b>" ++ htmlEscape ci.location ++ "</b>",
       (if ci.minutes_until ≤ 1 then "\n⏰ <b>Starting NOW!</b> \n"
        else "\n⏰ <i>Starts in " ++ pyStrInt ci.minutes_until ++ " minute"
          ++ (if ci.minutes_until ≠ 1 then "s" else "") ++ "</i>\n"),
       "🏃\u200d♂️ <i>Get ready and head to class!</i>",
       "<i>— SOMC\x2763 Bot</i>"] := by
    unfold compose_preclass_message
    rfl
  have l1 : ((if ci.minutes_until ≤ 5 then "🔴 <b>STARTING SOON!</b>"
      else if ci.minutes_until ≤ 10 then "🟡 <b>Starting in a few minutes</b>"
      else "🔔 <b>Upcoming class</b>") : String).data.count ch = 2 := by
    split
    · rcases hch with rfl | rfl <;> decide
    · split
      · rcases hch with rfl | rfl <;> decide
      · rcases hch with rfl | rfl <;> decide
  have l2 : (typeEmoji ci.type ++ " <b>" ++ htmlEscape ci.subject ++ "</b> <i>("
      ++ htmlEscape ci.type ++ ")</i>").data.count ch = 4 := by
    have c1 : (" <b>" : String).data.count ch = 1 := by rcases hch with rfl | rfl <;> decide
    have c2 : ("</b> <i>(" : String).data.count ch = 2 := by
      rcases hch with rfl | rfl <;> decide
    have c3 : (")</i>" : String).data.count ch = 1 := by rcases hch with rfl | rfl <;> decide
    rw [count_append_str, count_append_str, count_append_str, count_append_str,
      count_append_str, c1, c2, c3, count_typeEmoji hch, count_htmlEscape hch,
      count_htmlEscape hch]
  have l3 : ("🕐 Starts at <code>" ++ htmlEscape ci.start_time ++ "</code>").data.count ch
      = 2 := by
    have c1 : ("🕐 Starts at <code>" : String).data.count ch = 1 := by
      rcases hch with rfl | rfl <;> decide
    have c2 : ("</code>" : String).data.count ch = 1 := by
      rcases hch with rfl | rfl <;> decide
    rw [count_append_str, count_append_str, c1, c2, count_htmlEscape hch]
  have l4 : ("📍 Location: <b>" ++ htmlEscape ci.location ++ "</b>").data.count ch = 2 := by
    have c1 : ("📍 Location: <b>" : String).data.count ch = 1 := by
      rcases hch with rfl | rfl <;> decide
    have c2 : ("</b>" : String).data.count ch = 1 := by rcases hch with rfl | rfl <;> decide
    rw [count_append_str, count_append_str, c1, c2, count_htmlEscape hch]
  have l5 : ((if ci.minutes_until ≤ 1 then "\n⏰ <b>Starting NOW!</b> \n"
      else "\n⏰ <i>Starts in " ++ pyStrInt ci.minutes_until ++ " minute"
        ++ (if ci.minutes_until ≠ 1 then "s" else "") ++ "</i>\n") : String).data.count ch
      = 2 := by
    split
    · rcases hch with rfl | rfl <;> decide
    · have c1 : ("\n⏰ <i>Starts in " : String).data.count ch = 1 := by
        rcases hch with rfl | rfl <;> decide
      have c2 : (" minute" : String).data.count ch = 0 := by
        rcases hch with rfl | rfl <;> decide
      have c3 : (((if ci.minutes_until ≠ 1 then "s" else "") : String)).data.count ch = 0 := by
        split <;> (rcases hch with rfl | rfl <;> decide)
      have c4 : ("</i>\n" : String).data.count ch = 1 := by
        rcases hch with rfl | rfl <;> decide
      rw [count_append_str, count_append_str, count_append_str, count_append_str,
        c1, c2, c3, c4, count_pyStrInt hch]
  have l6 : ("🏃\u200d♂️ <i>Get ready and head to class!</i>" : String).data.count ch = 2 := by
    rcases hch with rfl | rfl <;> decide
  have l7 : ("<i>— SOMC\x2763 Bot</i>" : String).data.count ch = 2 := by
    rcases hch with rfl | rfl <;> decide
  rw [h0, count_joinSep hsep]
  simp only [List.map_cons, List.map_nil, List.sum_cons, List.sum_nil]
  rw [l1, l2, l3, l4, l5, l6, l7]
  rfl

/-- The non-wildcard branch of the alert header (line 304) interpolates the
raw `batch_list` joined with `", "` — with no escaping. -/
theorem preclassFinalMessage_of_ne {batch_list : List String}
    (hbl : batch_list ≠ ["All Batches"]) (message : String) :
    preclassFinalMessage batch_list message
      = "🎆 <b>Batch" ++ (if batch_list.length > 1 then "es" else "") ++ " "
        ++ joinSep ", " batch_list ++ "</b>\n\n" ++ message := by
  unfold preclassFinalMessage
  have hcond : (batch_list.length == 1 && (batch_list.headD "" == "All Batches")) = false := by
    rcases batch_list with _ | ⟨x, _ | ⟨y, rest⟩⟩
    · rfl
    · have hx : x ≠ "All Batches" := fun hx => hbl (by rw [hx])
      simp [hx]
    · have hl : ((x :: y :: rest).length == 1) = false :=
        beq_eq_false_iff_ne.mpr (by simp)
      simp only [hl, Bool.false_and]
  rw [hcond]
  simp

/-- C5 counterexample: a batches entry `"<u>"` reaches the network alert
header raw — the composed channel message carries the unescaped `<u>`
(three `<` characters instead of the two template ones), although
`html.escape` would have rendered it as `&lt;u&gt;`. -/
theorem preclass_header_unescaped :
    preclassFinalMessage (preclassBatchList ["<u>"]) "MSG" = "🎆 <b>Batch <u></b>\n\nMSG"
    ∧ htmlEscape "<u>" = "&lt;u&gt;"
    ∧ ("🎆 <b>Batch <u></b>\n\nMSG").data.count '<' = 3 := by
  refine ⟨by decide, by decide, by decide⟩

/-- C5 (amended): every content field interpolated into the per-batch
agenda messages (subject, type, location, time string, audience name, day
name) and into the pre-class alert body (subject, type, location, start
time) passes through `html.escape`, so the number of markup angle
brackets (`<` and `>`) in those messages equals the fixed template budget,
independent of timetable content; but the audience-label header prepended
to a network pre-class alert interpolates the raw batches list joined
with ", " without escaping, so batches content reaches the channel
unescaped. -/
theorem escaping_coverage :
    (∀ ch : Char, (ch = '<' ∨ ch = '>') → ∀ (schedule : Schedule) (day_name batch : String),
      (compose_batch_message schedule day_name batch).data.count ch
        = composeBatchAngles schedule day_name batch)
    ∧ (∀ ch : Char, (ch = '<' ∨ ch = '>') → ∀ ci : UpcomingClass,
        (compose_preclass_message ci).data.count ch = 16)
    ∧ (∀ (batch_list : List String) (message : String), batch_list ≠ ["All Batches"] →
        preclassFinalMessage batch_list message
          = "🎆 <b>Batch" ++ (if batch_list.length > 1 then "es" else "") ++ " "
            ++ joinSep ", " batch_list ++ "</b>\n\n" ++ message) :=
  ⟨fun _ hch => count_compose_batch_message hch,
   fun _ hch => count_compose_preclass_message hch,
   fun _ m h => preclassFinalMessage_of_ne h m⟩

/-- C5 witness: the amended theorem applied to the concrete Monday
schedule, the sample alert, and a concrete non-wildcard label. -/
theorem escaping_coverage_witness :
    (compose_batch_message sched1 "Monday" "A").data.count '<'
      = composeBatchAngles sched1 "Monday" "A"
    ∧ composeBatchAngles sched1 "Monday" "A" = 14
    ∧ (compose_preclass_message sampleUpcoming).data.count '<' = 16
    ∧ preclassFinalMessage ["B"] "M" = "🎆 <b>Batch B</b>\n\nM" :=
  ⟨escaping_coverage.1 '<' (Or.inl rfl) sched1 "Monday" "A",
   by decide,
   escaping_coverage.2.1 '<' (Or.inl rfl) sampleUpcoming,
   (escaping_coverage.2.2 ["B"] "M" (by decide)).trans (by decide)⟩

/-! ## Alerts carry raw batches lists (C10) -/

/-- C10 counterexample: the batches list `["All"]` consists solely of
identifiers outside the roster A-E, yet its alert header is the
`"All Batches (A, B, C, D, E)"` wildcard label, not the raw
comma-joined list — composition does compare the list against the
wildcard marker and the roster. -/
theorem wildcard_label_not_raw_join :
    ("All" ∉ BATCHES)
    ∧ preclassBatchList ["All"] = ["All Batches"]
    ∧ preclassFinalMessage (preclassBatchList ["All"]) "MSG"
      = "🎆 <b>All Batches (A, B, C, D, E)</b>\n\nMSG"
    ∧ preclassFinalMessage (preclassBatchList ["All"]) "MSG" ≠ "🎆 <b>Batch All</b>\n\nMSG" := by
  refine ⟨by decide, by decide, by decide, by decide⟩

/-- C10 (amended): detection emits one event per activity of a qualifying
slot with the raw `batches` list carried over unchanged — no filtering
against the roster ever drops an alert; and for a batches list that is
empty or contains only identifiers outside the roster *other than the
wildcard marker `"All"`*, the grouping step passes the list through raw,
so (provided the list is not literally `["All Batches"]`) the alert
header is the raw batches list joined with ", ", the empty list giving an
empty label.  (Composition does, however, relabel a list containing
`"All"` or enumerating the whole roster as "All Batches".) -/
theorem raw_batches_alerting :
    (∀ (cm L : Int) (slot : Slot) (S : Int),
      timeRangeStart (slot.time.getD "") = some S →
      0 ≤ S - cm → S - cm ≤ L →
      slotEvents cm L slot
        = (slot.activities.getD []).map
            (eventOf (slot.time.getD "") (startPart (slot.time.getD "")) (S - cm)))
    ∧ (∀ batches : List String,
        (∀ b ∈ batches, b ∉ BATCHES ∧ b ≠ "All") →
        preclassBatchList batches = batches)
    ∧ (∀ (batch_list : List String) (message : String), batch_list ≠ ["All Batches"] →
        preclassFinalMessage batch_list message
          = "🎆 <b>Batch" ++ (if batch_list.length > 1 then "es" else "") ++ " "
            ++ joinSep ", " batch_list ++ "</b>\n\n" ++ message)
    ∧ joinSep ", " ([] : List String) = "" := by
  refine ⟨?_, ?_, fun _ m h => preclassFinalMessage_of_ne h m, rfl⟩
  · intro cm L slot S hS h0 h1
    rw [slotEvents_eq, hS]
    show (if 0 ≤ S - cm ∧ S - cm ≤ L then
        List.map (eventOf (slot.time.getD "") (startPart (slot.time.getD "")) (S - cm))
          (slot.activities.getD []) else []) = _
    rw [if_pos ⟨h0, h1⟩]
  · intro batches h
    have hAll' : "All" ∉ batches := fun hm => (h _ hm).2 rfl
    have hset : setEqB batches BATCHES = false := by
      apply Bool.eq_false_iff.mpr
      intro hc
      obtain ⟨-, h2⟩ := (setEqB_iff _ _).mp hc
      exact (h "A" (h2 "A" (by decide))).1 (by decide)
    have hcheck : preclassAllCheck batches = false := by
      unfold preclassAllCheck
      rw [hset, Bool.or_false]
      exact Bool.eq_false_iff.mpr (fun hc => hAll' (by simpa using hc))
    unfold preclassBatchList
    rw [hcheck]
    simp

/-- A qualifying slot whose single activity has no batches field at all
(the raw batches list defaults to the empty list). -/
def slotEmptyBatches : Slot :=
  { time := some "09:00-10:00", activities := some [{ subject := some "Anatomy" }] }

/-- C10 witness: the amended theorem applied to the off-roster label
`["X"]`, to the empty list, and to a qualifying slot whose activity has an
empty batches list (it still yields exactly one alert record). -/
theorem raw_batches_alerting_witness :
    preclassBatchList ["X"] = ["X"]
    ∧ preclassFinalMessage ["X"] "MSG" = "🎆 <b>Batch X</b>\n\nMSG"
    ∧ preclassBatchList [] = []
    ∧ preclassFinalMessage [] "MSG" = "🎆 <b>Batch </b>\n\nMSG"
    ∧ slotEvents 530 15 slotEmptyBatches
      = [eventOf "09:00-10:00" "09:00" 10 { subject := some "Anatomy" }] :=
  ⟨raw_batches_alerting.2.1 ["X"] (by decide),
   (raw_batches_alerting.2.2.1 ["X"] "MSG" (by decide)).trans (by decide),
   raw_batches_alerting.2.1 [] (by decide),
   (raw_batches_alerting.2.2.1 [] "MSG" (by decide)).trans (by decide),
   (raw_batches_alerting.1 530 15 slotEmptyBatches 540 (by decide) (by decide)
     (by decide)).trans (by decide)⟩

end SOMCBot
